import Mathlib

/-!
Verification of the Secure envelope-encryption core: the versioned header
codec (`crypto-header.ts`), the KDF provider (`kdf.ts`), the envelope
cipher (`crypto-v2.ts`), the legacy adapter (`legacy-crypto.ts`) and the
triple-layer orchestrator (`CryptoVault.tsx`).

Modelling conventions:
* Byte strings (`Uint8Array`, UTF-8 text, base64 text) are `List Nat`;
  theorems carry `< 256` bounds where the code relies on bytes.
* External cryptographic primitives (tweetnacl `secretbox`, `scrypt-js`,
  hash-wasm `argon2id`) are not part of the repository; they are modelled
  as deterministic executable functions that preserve the envelope
  algebra the code relies on: output framing (16-byte authentication tag,
  ciphertext of the plaintext's length), determinism, and an
  authentication check that succeeds exactly when the recomputed tag
  matches the stored one.  Confidentiality and collision resistance of
  the primitives are outside the model.
* The availability of the Argon2id capability (hash-wasm loading
  successfully) is an explicit boolean parameter `argon2Available`.
* Fresh randomness (salt, nonce) is passed explicitly as parameters.
* Thrown JavaScript errors become `Except String`.
-/

/-! ## Base64 transport codec

Model of Node `Buffer.from(u8).toString('base64')` and
`Buffer.from(b64, 'base64')` used by `blobToBase64` / `base64ToBlob` in
`crypto-header.ts` (and by the legacy adapter).  Characters are
represented by their ASCII codes. -/

/-- The 64 base64 alphabet characters (ASCII codes): A-Z a-z 0-9 + / -/
def b64Codes : List Nat :=
  [65, 66, 67, 68, 69, 70, 71, 72, 73, 74, 75, 76, 77, 78, 79, 80,
   81, 82, 83, 84, 85, 86, 87, 88, 89, 90,
   97, 98, 99, 100, 101, 102, 103, 104, 105, 106, 107, 108, 109, 110,
   111, 112, 113, 114, 115, 116, 117, 118, 119, 120, 121, 122,
   48, 49, 50, 51, 52, 53, 54, 55, 56, 57, 43, 47]

/-- ASCII code of the base64 character for a sextet. -/
def sextetToCode (n : Nat) : Nat := b64Codes.getD n 65

/-- Sextet of a base64 character code (index in the alphabet). -/
def codeToSextet (c : Nat) : Nat := b64Codes.findIdx (fun x => x == c)

/-- Whether a character code belongs to the base64 alphabet
(padding `=` (61) is not part of the alphabet). -/
def isB64Code (c : Nat) : Bool := b64Codes.contains c

/-- Base64-encode a byte list (standard alphabet, `=` padding), as
`Buffer.toString('base64')` does.  This is `blobToBase64` of
`crypto-header.ts` composed with the external codec. -/
def blobToBase64 : List Nat → List Nat
  | [] => []
  | [a] => [sextetToCode (a / 4), sextetToCode (a % 4 * 16), 61, 61]
  | [a, b] => [sextetToCode (a / 4), sextetToCode (a % 4 * 16 + b / 16),
               sextetToCode (b % 16 * 4), 61]
  | a :: b :: c :: rest =>
      sextetToCode (a / 4) :: sextetToCode (a % 4 * 16 + b / 16) ::
      sextetToCode (b % 16 * 4 + c / 64) :: sextetToCode (c % 64) ::
      blobToBase64 rest

/-- Reassemble bytes from a sextet stream (4 sextets to 3 bytes, with the
trailing 2- or 3-sextet groups of a padded encoding giving 1 or 2 bytes,
as Node's decoder does). -/
def decodeSextets : List Nat → List Nat
  | w :: x :: y :: z :: rest =>
      (w * 4 + x / 16) :: (x % 16 * 16 + y / 4) :: (y % 4 * 64 + z) ::
      decodeSextets rest
  | [w, x, y] => [w * 4 + x / 16, x % 16 * 16 + y / 4]
  | [w, x] => [w * 4 + x / 16]
  | _ => []

/-- Base64-decode a character-code list, as `Buffer.from(b64, 'base64')`
does: characters outside the alphabet (including padding) are skipped,
then sextets are reassembled into bytes.  This is `base64ToBlob` of
`crypto-header.ts` composed with the external codec. -/
def base64ToBlob (s : List Nat) : List Nat :=
  decodeSextets ((s.filter isB64Code).map codeToSextet)

theorem codeToSextet_sextetToCode : ∀ n, n < 64 → codeToSextet (sextetToCode n) = n := by
  decide

theorem isB64Code_sextetToCode : ∀ n, n < 64 → isB64Code (sextetToCode n) = true := by
  decide

theorem isB64Code_61 : isB64Code 61 = false := by decide

theorem sextetToCode_lt (n : Nat) : sextetToCode n < 256 := by
  rcases Nat.lt_or_ge n 64 with h | h
  · revert n; decide
  · unfold sextetToCode
    rw [List.getD_eq_default]
    · omega
    · have : b64Codes.length = 64 := by decide
      omega

/-- The sextet pipeline of `base64ToBlob` on an encoder output. -/
theorem filter_map_blobToBase64 (l : List Nat) (h : ∀ b ∈ l, b < 256) :
    ((blobToBase64 l).filter isB64Code).map codeToSextet =
      match l with
      | [] => []
      | [a] => [a / 4, a % 4 * 16]
      | [a, b] => [a / 4, a % 4 * 16 + b / 16, b % 16 * 4]
      | a :: b :: c :: rest =>
          a / 4 :: (a % 4 * 16 + b / 16) :: (b % 16 * 4 + c / 64) :: c % 64 ::
          ((blobToBase64 rest).filter isB64Code).map codeToSextet := by
  match l with
  | [] => rfl
  | [a] =>
    have ha : a < 256 := h a (by simp)
    have h1 : a / 4 < 64 := by omega
    have h2 : a % 4 * 16 < 64 := by omega
    simp [blobToBase64, List.filter, isB64Code_sextetToCode _ h1,
      isB64Code_sextetToCode _ h2, isB64Code_61,
      codeToSextet_sextetToCode _ h1, codeToSextet_sextetToCode _ h2]
  | [a, b] =>
    have ha : a < 256 := h a (by simp)
    have hb : b < 256 := h b (by simp)
    have h1 : a / 4 < 64 := by omega
    have h2 : a % 4 * 16 + b / 16 < 64 := by omega
    have h3 : b % 16 * 4 < 64 := by omega
    simp [blobToBase64, List.filter, isB64Code_sextetToCode _ h1,
      isB64Code_sextetToCode _ h2, isB64Code_sextetToCode _ h3, isB64Code_61,
      codeToSextet_sextetToCode _ h1, codeToSextet_sextetToCode _ h2,
      codeToSextet_sextetToCode _ h3]
  | a :: b :: c :: rest =>
    have ha : a < 256 := h a (by simp)
    have hb : b < 256 := h b (by simp)
    have hc : c < 256 := h c (by simp)
    have h1 : a / 4 < 64 := by omega
    have h2 : a % 4 * 16 + b / 16 < 64 := by omega
    have h3 : b % 16 * 4 + c / 64 < 64 := by omega
    have h4 : c % 64 < 64 := by omega
    simp [blobToBase64, List.filter, isB64Code_sextetToCode _ h1,
      isB64Code_sextetToCode _ h2, isB64Code_sextetToCode _ h3,
      isB64Code_sextetToCode _ h4,
      codeToSextet_sextetToCode _ h1, codeToSextet_sextetToCode _ h2,
      codeToSextet_sextetToCode _ h3, codeToSextet_sextetToCode _ h4]

/-- Decoding inverts encoding on genuine byte lists. -/
theorem base64ToBlob_blobToBase64 :
    ∀ l : List Nat, (∀ b ∈ l, b < 256) → base64ToBlob (blobToBase64 l) = l
  | [], _ => rfl
  | [a], h => by
    have ha : a < 256 := h a (by simp)
    unfold base64ToBlob
    rw [filter_map_blobToBase64 _ h]
    simp only [decodeSextets]
    congr 1
    omega
  | [a, b], h => by
    have ha : a < 256 := h a (by simp)
    have hb : b < 256 := h b (by simp)
    unfold base64ToBlob
    rw [filter_map_blobToBase64 _ h]
    simp only [decodeSextets]
    congr 1
    · omega
    · congr 1
      omega
  | a :: b :: c :: rest, h => by
    have ha : a < 256 := h a (by simp)
    have hb : b < 256 := h b (by simp)
    have hc : c < 256 := h c (by simp)
    have hrest : ∀ x ∈ rest, x < 256 := fun x hx => h x (by simp [hx])
    have ih := base64ToBlob_blobToBase64 rest hrest
    unfold base64ToBlob
    rw [filter_map_blobToBase64 _ h]
    simp only [decodeSextets]
    unfold base64ToBlob at ih
    rw [ih]
    congr 1
    · omega
    · congr 1
      · omega
      · congr 1
        omega

/-- Length of a base64 encoding: four characters per (started) 3-byte group. -/
theorem blobToBase64_length :
    ∀ l : List Nat, (blobToBase64 l).length = (l.length + 2) / 3 * 4
  | [] => rfl
  | [_] => by simp [blobToBase64]
  | [_, _] => by simp [blobToBase64]
  | a :: b :: c :: rest => by
    simp only [blobToBase64, List.length_cons, blobToBase64_length rest]
    omega

/-- All codes produced by the encoder are bytes. -/
theorem blobToBase64_lt :
    ∀ l : List Nat, ∀ x ∈ blobToBase64 l, x < 256
  | [], x, hx => by simp [blobToBase64] at hx
  | [a], x, hx => by
    simp only [blobToBase64, List.mem_cons, List.not_mem_nil, or_false] at hx
    rcases hx with rfl | rfl | rfl | rfl <;> first | exact sextetToCode_lt _ | omega
  | [a, b], x, hx => by
    simp only [blobToBase64, List.mem_cons, List.not_mem_nil, or_false] at hx
    rcases hx with rfl | rfl | rfl | rfl <;> first | exact sextetToCode_lt _ | omega
  | a :: b :: c :: rest, x, hx => by
    simp only [blobToBase64, List.mem_cons] at hx
    rcases hx with rfl | rfl | rfl | rfl | hx
    · exact sextetToCode_lt _
    · exact sextetToCode_lt _
    · exact sextetToCode_lt _
    · exact sextetToCode_lt _
    · exact blobToBase64_lt rest x hx

/-! ## KDF provider (`kdf.ts`) -/

/-- `KdfId` of `kdf.ts`. -/
inductive KdfId where
  | argon2id
  | scrypt
deriving DecidableEq

/-- `Required<KdfConfig>` of `kdf.ts`: one active variant, all numeric
fields present. -/
structure KdfConfig where
  id : KdfId
  m : Nat
  t : Nat
  p : Nat
  N : Nat
  r : Nat
  s_p : Nat
  keyLen : Nat
deriving DecidableEq

/-- `Partial<KdfConfig>`: every field optional, as in the TypeScript
partial used for caller overrides. -/
structure PartialKdfConfig where
  id : Option KdfId := none
  m : Option Nat := none
  t : Option Nat := none
  p : Option Nat := none
  N : Option Nat := none
  r : Option Nat := none
  s_p : Option Nat := none
  keyLen : Option Nat := none
deriving DecidableEq

/-- Object-spread merge `{ ...base, ...cfg }`: fields present in `cfg`
override `base`. -/
def mergeConfig (base : KdfConfig) : Option PartialKdfConfig → KdfConfig
  | none => base
  | some c =>
      { id := c.id.getD base.id, m := c.m.getD base.m, t := c.t.getD base.t,
        p := c.p.getD base.p, N := c.N.getD base.N, r := c.r.getD base.r,
        s_p := c.s_p.getD base.s_p, keyLen := c.keyLen.getD base.keyLen }

/-- View a full config as a partial one with every field present (the
shape `decryptV2` passes `header.kdfConfig` in). -/
def toPartial (c : KdfConfig) : PartialKdfConfig :=
  { id := some c.id, m := some c.m, t := some c.t, p := some c.p,
    N := some c.N, r := some c.r, s_p := some c.s_p, keyLen := some c.keyLen }

/-- `DEFAULT_ARGON2ID` of `kdf.ts`. -/
def DEFAULT_ARGON2ID : KdfConfig :=
  { id := .argon2id, m := 19 * 1024, t := 2, p := 1, N := 0, r := 0, s_p := 0,
    keyLen := 32 }

/-- `DEFAULT_SCRYPT` of `kdf.ts`. -/
def DEFAULT_SCRYPT : KdfConfig :=
  { id := .scrypt, N := 2 ^ 17, r := 8, s_p := 1, m := 0, t := 0, p := 0,
    keyLen := 32 }

/-- `MOBILE_SCRYPT` of `kdf.ts` (resource-constrained scrypt fallback). -/
def MOBILE_SCRYPT : KdfConfig :=
  { id := .scrypt, N := 2 ^ 12, r := 8, s_p := 1, m := 0, t := 0, p := 0,
    keyLen := 32 }

/-- Model of the external hash-wasm `argon2id` (a deterministic function of
password, salt and parameters; its internal structure is outside scope). -/
def argon2Model (password salt : List Nat) (m t p keyLen : Nat) : List Nat :=
  [1, m, t, p, keyLen] ++ password ++ [256] ++ salt

/-- Model of the external `scrypt-js` `scrypt` (a deterministic function of
password, salt and parameters; its internal structure is outside scope). -/
def scryptModel (password salt : List Nat) (N r p keyLen : Nat) : List Nat :=
  [2, N, r, p, keyLen] ++ password ++ [256] ++ salt

/-- `deriveKey` of `kdf.ts`.  `argon2Available` models whether the lazy
hash-wasm Argon2id load succeeds; when the merged config requests
Argon2id (or no id was requested) and the capability is present, Argon2id
runs with the merged parameters; otherwise the code falls through to the
scrypt branch: an explicit scrypt request is honoured merged over
`DEFAULT_SCRYPT`, any other fallback uses `MOBILE_SCRYPT`. -/
def deriveKey (password salt : List Nat) (cfg : Option PartialKdfConfig)
    (argon2Available : Bool) : List Nat × KdfConfig :=
  let config := mergeConfig DEFAULT_ARGON2ID cfg
  if (config.id = .argon2id ∨ (cfg.bind (fun c => c.id)).isNone) ∧ argon2Available then
    (argon2Model password salt config.m config.t config.p config.keyLen,
     { config with id := .argon2id })
  else
    let scryptConfig :=
      if (cfg.bind (fun c => c.id)) = some .scrypt then mergeConfig DEFAULT_SCRYPT cfg
      else MOBILE_SCRYPT
    (scryptModel password salt scryptConfig.N scryptConfig.r scryptConfig.s_p
       scryptConfig.keyLen,
     scryptConfig)

/-- Little-endian `setUint32` as four bytes (truncating modulo 2^32 as
`DataView.setUint32` does). -/
def u32le (n : Nat) : List Nat :=
  [n % 256, n / 256 % 256, n / 65536 % 256, n / 16777216 % 256]

/-- Little-endian `getUint32` from a byte list at an offset (the code
only reads in-range offsets of the 12-byte params field). -/
def getU32le (l : List Nat) (off : Nat) : Nat :=
  match l.drop off with
  | b0 :: b1 :: b2 :: b3 :: _ => b0 + b1 * 256 + b2 * 65536 + b3 * 16777216
  | _ => 0

/-- `serializeKdfParams` of `kdf.ts`: three little-endian uint32 fields of
the active variant into 12 bytes. -/
def serializeKdfParams (config : KdfConfig) : List Nat :=
  match config.id with
  | .argon2id => u32le config.m ++ u32le config.t ++ u32le config.p
  | .scrypt => u32le config.N ++ u32le config.r ++ u32le config.s_p

/-- `deserializeKdfParams` of `kdf.ts`: rebuilds a full config from the
12-byte field; the inactive variant's fields are zero and `keyLen` is the
constant 32. -/
def deserializeKdfParams (kdfId : KdfId) (params : List Nat) : KdfConfig :=
  match kdfId with
  | .argon2id =>
      { id := .argon2id, m := getU32le params 0, t := getU32le params 4,
        p := getU32le params 8, N := 0, r := 0, s_p := 0, keyLen := 32 }
  | .scrypt =>
      { id := .scrypt, N := getU32le params 0, r := getU32le params 4,
        s_p := getU32le params 8, m := 0, t := 0, p := 0, keyLen := 32 }

/-- `deriveKeyLegacy` of `legacy-crypto.ts`: fixed scrypt parameters. -/
def deriveKeyLegacy (password salt : List Nat) : List Nat :=
  scryptModel password salt (2 ^ 12) 8 1 32

/-! ## Authenticated cipher model (tweetnacl `secretbox`)

`nacl.secretbox` is XSalsa20-Poly1305: its output is a 16-byte
authentication tag followed by a ciphertext of the plaintext's length,
and `nacl.secretbox.open` returns `null` when the input is shorter than
16 bytes or the recomputed tag does not match.  The model keeps exactly
this framing and check; the keystream is omitted (confidentiality is not
a provable property of a deterministic model). -/

/-- Little-endian byte expansion of a natural number to a fixed width. -/
def natToBytesLE : Nat → Nat → List Nat
  | 0, _ => []
  | k + 1, n => n % 256 :: natToBytesLE k (n / 256)

/-- Deterministic 128-bit mixing of a byte list into an accumulator
(model of the Poly1305 authenticator's dependence on its inputs). -/
def mixBytes (l : List Nat) (seed : Nat) : Nat :=
  l.foldl (fun a b => (a * 257 + b + 1) % 2 ^ 128) seed

/-- The 16-byte authentication tag of the secretbox model. -/
def tag16 (msg nonce key : List Nat) : List Nat :=
  natToBytesLE 16 (mixBytes key (mixBytes nonce (mixBytes msg 1)))

/-- Model of `nacl.secretbox`: tag followed by the message payload. -/
def secretbox (msg nonce key : List Nat) : List Nat :=
  tag16 msg nonce key ++ msg

/-- Model of `nacl.secretbox.open`: `none` for inputs shorter than the
tag, otherwise the payload exactly when the recomputed tag matches. -/
def secretboxOpen (box nonce key : List Nat) : Option (List Nat) :=
  if box.length < 16 then none
  else
    let t := box.take 16
    let m := box.drop 16
    if t = tag16 m nonce key then some m else none

theorem natToBytesLE_length (k n : Nat) : (natToBytesLE k n).length = k := by
  induction k generalizing n with
  | zero => rfl
  | succ k ih => simp [natToBytesLE, ih]

theorem natToBytesLE_lt (k n : Nat) : ∀ x ∈ natToBytesLE k n, x < 256 := by
  induction k generalizing n with
  | zero => simp [natToBytesLE]
  | succ k ih =>
    intro x hx
    simp only [natToBytesLE, List.mem_cons] at hx
    rcases hx with rfl | hx
    · omega
    · exact ih _ x hx

theorem tag16_length (msg nonce key : List Nat) : (tag16 msg nonce key).length = 16 :=
  natToBytesLE_length 16 _

theorem secretbox_length (msg nonce key : List Nat) :
    (secretbox msg nonce key).length = msg.length + 16 := by
  simp only [secretbox, List.length_append, tag16_length]
  omega

theorem secretboxOpen_secretbox (msg nonce key : List Nat) :
    secretboxOpen (secretbox msg nonce key) nonce key = some msg := by
  have hl : (tag16 msg nonce key).length = 16 := tag16_length msg nonce key
  simp [secretboxOpen, secretbox_length, secretbox,
    List.take_left' hl, List.drop_left' hl]
  omega

theorem secretbox_lt (msg nonce key : List Nat) (h : ∀ x ∈ msg, x < 256) :
    ∀ x ∈ secretbox msg nonce key, x < 256 := by
  intro x hx
  simp only [secretbox, List.mem_append] at hx
  rcases hx with hx | hx
  · exact natToBytesLE_lt 16 _ x hx
  · exact h x hx

/-! ## Header codec (`crypto-header.ts`) -/

/-- `HEADER_SIZE` of `crypto-header.ts`: magic(3) ver(1) kdf(1) params(12)
salt(16) nonce(24). -/
def HEADER_SIZE : Nat := 3 + 1 + 1 + 12 + 16 + 24

/-- The byte values of the ASCII magic string "SS1". -/
def magicBytes : List Nat := [83, 83, 49]

/-- Single byte of a byte list (`view.getUint8(i)`). -/
def byteAt (l : List Nat) (i : Nat) : Nat := (l.drop i).headD 0

/-- `KDF_IDS` of `crypto-header.ts`. -/
def KDF_IDS : KdfId → Nat
  | .argon2id => 1
  | .scrypt => 2

/-- `KDF_NAMES` of `crypto-header.ts` (lookup of a byte in the id table). -/
def KDF_NAMES (b : Nat) : Option KdfId :=
  if b = 1 then some .argon2id else if b = 2 then some .scrypt else none

/-- `CryptoHeader` of `crypto-header.ts` (the magic kept as its bytes). -/
structure CryptoHeader where
  magic : List Nat
  version : Nat
  kdfId : KdfId
  kdfConfig : KdfConfig
  salt : List Nat
  nonce : List Nat
deriving DecidableEq

/-- `createHeader` of `crypto-header.ts`: magic, version 1, KDF id byte
and serialized params followed by salt and nonce.  (The source writes
into a fixed 57-byte `Uint8Array`; callers always pass a 16-byte salt and
a 24-byte nonce, which the theorems state as hypotheses.) -/
def createHeader (config : KdfConfig) (salt nonce : List Nat) : List Nat :=
  magicBytes ++ [1, KDF_IDS config.id] ++ serializeKdfParams config ++ salt ++ nonce

/-- `parseHeader` of `crypto-header.ts`: length, magic, version and KDF id
checks in source order, then field slicing; the remainder past the header
is the ciphertext. -/
def parseHeader (blob : List Nat) : Except String (CryptoHeader × List Nat) :=
  if blob.length < HEADER_SIZE then .error "Blob too short for header"
  else if blob.take 3 = magicBytes then
    if byteAt blob 3 = 1 then
      match KDF_NAMES (byteAt blob 4) with
      | some kdfId =>
          .ok ({ magic := blob.take 3, version := byteAt blob 3, kdfId := kdfId,
                 kdfConfig := deserializeKdfParams kdfId ((blob.drop 5).take 12),
                 salt := (blob.drop 17).take 16,
                 nonce := (blob.drop 33).take 24 },
               blob.drop 57)
      | none => .error "Unknown KDF ID"
    else .error "Unsupported version"
  else .error "Invalid magic"

/-- `createBlob` of `crypto-header.ts`. -/
def createBlob (header ciphertext : List Nat) : List Nat :=
  header ++ ciphertext

/-! ## Envelope cipher (`crypto-v2.ts`) -/

/-- The binary blob built by `encryptV2` before base64: header followed by
the secretbox output.  Plaintext and password are byte lists (the UTF-8
bytes of the source's strings); `salt` and `nonce` are the freshly drawn
random bytes; `argon2Available` is the environment capability. -/
def encryptV2Blob (plaintext password : List Nat) (cfg : Option PartialKdfConfig)
    (salt nonce : List Nat) (argon2Available : Bool) : List Nat :=
  createBlob
    (createHeader (deriveKey password salt cfg argon2Available).2 salt nonce)
    (secretbox plaintext nonce (deriveKey password salt cfg argon2Available).1)

/-- `encryptV2` of `crypto-v2.ts`: derive a key, secretbox the plaintext,
prepend the versioned header and base64-encode. -/
def encryptV2 (plaintext password : List Nat) (cfg : Option PartialKdfConfig)
    (salt nonce : List Nat) (argon2Available : Bool) : List Nat :=
  blobToBase64 (encryptV2Blob plaintext password cfg salt nonce argon2Available)

/-- `decryptV2` of `crypto-v2.ts`: base64-decode, parse the header,
re-derive the key from the header's salt and config, and open the
secretbox with the header's nonce. -/
def decryptV2 (b64 password : List Nat) (argon2Available : Bool) :
    Except String (List Nat) :=
  match parseHeader (base64ToBlob b64) with
  | .error e => .error e
  | .ok (header, ciphertext) =>
      match secretboxOpen ciphertext header.nonce
        (deriveKey password header.salt (some (toPartial header.kdfConfig))
          argon2Available).1 with
      | some plain => .ok plain
      | none => .error "Decryption failed: incorrect password or corrupted data"

/-! ## Legacy adapter (`legacy-crypto.ts`) -/

/-- `encryptToBase64Legacy` of `legacy-crypto.ts`: salt, nonce and
secretbox output packed without a header, base64-encoded. -/
def encryptToBase64Legacy (plaintext password salt nonce : List Nat) : List Nat :=
  let key := deriveKeyLegacy password salt
  blobToBase64 (salt ++ nonce ++ secretbox plaintext nonce key)

/-- `decryptFromBase64` of `legacy-crypto.ts`: rejects decoded input of at
most 56 bytes, then slices salt (16), nonce (24) and box, derives the
fixed-parameter scrypt key and opens the box. -/
def decryptFromBase64 (b64 password : List Nat) : Except String (List Nat) :=
  let all := base64ToBlob b64
  if all.length ≤ 16 + 24 + 16 then .error "Encrypted text too short"
  else
    let salt := all.take 16
    let nonce := (all.drop 16).take 24
    let box := all.drop 40
    match secretboxOpen box nonce (deriveKeyLegacy password salt) with
    | some plain => .ok plain
    | none => .error "Incorrect password or corrupted data"

/-- `decryptAuto` of `crypto-v2.ts`: try the v2 decrypt; on any failure
try the legacy decrypt; if that also fails, a single unified error. -/
def decryptAuto (b64 password : List Nat) (argon2Available : Bool) :
    Except String (List Nat) :=
  match decryptV2 b64 password argon2Available with
  | .ok plain => .ok plain
  | .error _ =>
      match decryptFromBase64 b64 password with
      | .ok plain => .ok plain
      | .error _ => .error "Decryption failed: incorrect password or unsupported format"

/-! ## Layered orchestrator (`CryptoVault.tsx`) -/

/-- `tripleEncryptV2` of `CryptoVault.tsx`: three sequential `encryptV2`
layers, `pass1` innermost; each layer draws its own salt and nonce.  The
intermediate base64 strings are re-encrypted as plaintext (their byte
lists). -/
def tripleEncryptV2 (seedPhrase pass1 pass2 pass3 : List Nat)
    (salt1 nonce1 salt2 nonce2 salt3 nonce3 : List Nat)
    (argon2Available : Bool) : List Nat :=
  let layer1 := encryptV2 seedPhrase pass1 none salt1 nonce1 argon2Available
  let layer2 := encryptV2 layer1 pass2 none salt2 nonce2 argon2Available
  encryptV2 layer2 pass3 none salt3 nonce3 argon2Available

/-! ## Header codec lemmas -/

theorem u32le_length (n : Nat) : (u32le n).length = 4 := rfl

theorem u32le_lt (n : Nat) : ∀ x ∈ u32le n, x < 256 := by
  intro x hx
  simp only [u32le, List.mem_cons, List.not_mem_nil, or_false] at hx
  rcases hx with rfl | rfl | rfl | rfl <;> omega

theorem serializeKdfParams_length (c : KdfConfig) :
    (serializeKdfParams c).length = 12 := by
  rcases c with ⟨id, m, t, p, N, r, s_p, keyLen⟩
  cases id <;> simp [serializeKdfParams, u32le]

theorem serializeKdfParams_lt (c : KdfConfig) :
    ∀ x ∈ serializeKdfParams c, x < 256 := by
  rcases c with ⟨id, m, t, p, N, r, s_p, keyLen⟩
  cases id <;>
    { intro x hx
      simp only [serializeKdfParams, List.mem_append] at hx
      rcases hx with (hx | hx) | hx <;> exact u32le_lt _ x hx }

theorem KDF_NAMES_KDF_IDS (i : KdfId) : KDF_NAMES (KDF_IDS i) = some i := by
  cases i <;> rfl

theorem getU32le_triple (a b c : Nat) :
    getU32le (u32le a ++ u32le b ++ u32le c) 0 = a % 2 ^ 32 ∧
    getU32le (u32le a ++ u32le b ++ u32le c) 4 = b % 2 ^ 32 ∧
    getU32le (u32le a ++ u32le b ++ u32le c) 8 = c % 2 ^ 32 := by
  simp only [u32le, List.cons_append, List.nil_append]
  refine ⟨?_, ?_, ?_⟩ <;> { simp only [getU32le, List.drop]; omega }

/-- `deserializeKdfParams` inverts `serializeKdfParams` on an Argon2id
config whose recorded fields are in uint32 range, whose inactive fields
are zero and whose key length is the constant 32. -/
theorem deserialize_serialize_argon2id (c : KdfConfig) (hid : c.id = .argon2id)
    (hm : c.m < 2 ^ 32) (ht : c.t < 2 ^ 32) (hp : c.p < 2 ^ 32) :
    deserializeKdfParams .argon2id (serializeKdfParams c) =
      { id := .argon2id, m := c.m, t := c.t, p := c.p, N := 0, r := 0, s_p := 0,
        keyLen := 32 } := by
  rcases c with ⟨id, m, t, p, N, r, s_p, keyLen⟩
  have hid' : id = KdfId.argon2id := hid
  subst hid'
  obtain ⟨h0, h4, h8⟩ := getU32le_triple m t p
  simp only [deserializeKdfParams, serializeKdfParams] at h0 h4 h8 ⊢
  rw [h0, h4, h8]
  simp only at hm ht hp
  simp [Nat.mod_eq_of_lt hm, Nat.mod_eq_of_lt ht, Nat.mod_eq_of_lt hp]
  omega

/-- `deserializeKdfParams` inverts `serializeKdfParams` on a scrypt config
whose recorded fields are in uint32 range, whose inactive fields are zero
and whose key length is the constant 32. -/
theorem deserialize_serialize_scrypt (c : KdfConfig) (hid : c.id = .scrypt)
    (hN : c.N < 2 ^ 32) (hr : c.r < 2 ^ 32) (hsp : c.s_p < 2 ^ 32) :
    deserializeKdfParams .scrypt (serializeKdfParams c) =
      { id := .scrypt, N := c.N, r := c.r, s_p := c.s_p, m := 0, t := 0, p := 0,
        keyLen := 32 } := by
  rcases c with ⟨id, m, t, p, N, r, s_p, keyLen⟩
  have hid' : id = KdfId.scrypt := hid
  subst hid'
  obtain ⟨h0, h4, h8⟩ := getU32le_triple N r s_p
  simp only [deserializeKdfParams, serializeKdfParams] at h0 h4 h8 ⊢
  rw [h0, h4, h8]
  simp only at hN hr hsp
  simp [Nat.mod_eq_of_lt hN, Nat.mod_eq_of_lt hr, Nat.mod_eq_of_lt hsp]
  omega

/-- Explicit cons form of a built blob. -/
theorem createBlob_eq (c : KdfConfig) (salt nonce box : List Nat) :
    createBlob (createHeader c salt nonce) box =
      83 :: 83 :: 49 :: 1 :: KDF_IDS c.id ::
        (serializeKdfParams c ++ (salt ++ (nonce ++ box))) := by
  simp [createBlob, createHeader, magicBytes, List.append_assoc]

theorem createHeader_length (c : KdfConfig) (salt nonce : List Nat)
    (hs : salt.length = 16) (hn : nonce.length = 24) :
    (createHeader c salt nonce).length = 57 := by
  simp [createHeader, magicBytes, List.length_append, serializeKdfParams_length,
    hs, hn]

/-- Parsing a built blob recovers the deserialized config, the salt, the
nonce and the trailing ciphertext. -/
theorem parseHeader_createBlob (c : KdfConfig) (salt nonce box : List Nat)
    (hs : salt.length = 16) (hn : nonce.length = 24) :
    parseHeader (createBlob (createHeader c salt nonce) box) =
      .ok ({ magic := magicBytes, version := 1, kdfId := c.id,
             kdfConfig := deserializeKdfParams c.id (serializeKdfParams c),
             salt := salt, nonce := nonce }, box) := by
  have hp : (serializeKdfParams c).length = 12 := serializeKdfParams_length c
  rw [createBlob_eq]
  have hlen : ¬((83 :: 83 :: 49 :: 1 :: KDF_IDS c.id ::
      (serializeKdfParams c ++ (salt ++ (nonce ++ box)))).length < HEADER_SIZE) := by
    simp only [List.length_cons, List.length_append, hp, hs, hn, HEADER_SIZE]
    omega
  unfold parseHeader
  have hmagic : List.take 3 (83 :: 83 :: 49 :: 1 :: KDF_IDS c.id ::
      (serializeKdfParams c ++ (salt ++ (nonce ++ box)))) = magicBytes := rfl
  have hver : byteAt (83 :: 83 :: 49 :: 1 :: KDF_IDS c.id ::
      (serializeKdfParams c ++ (salt ++ (nonce ++ box)))) 3 = 1 := rfl
  rw [if_neg hlen, if_pos hmagic, if_pos hver, hmagic, hver]
  have hbyte : byteAt (83 :: 83 :: 49 :: 1 :: KDF_IDS c.id ::
      (serializeKdfParams c ++ (salt ++ (nonce ++ box)))) 4 = KDF_IDS c.id := rfl
  rw [hbyte, KDF_NAMES_KDF_IDS]
  have hdrop5 : (83 :: 83 :: 49 :: 1 :: KDF_IDS c.id ::
      (serializeKdfParams c ++ (salt ++ (nonce ++ box)))).drop 5 =
      serializeKdfParams c ++ (salt ++ (nonce ++ box)) := rfl
  have hdrop17 : (83 :: 83 :: 49 :: 1 :: KDF_IDS c.id ::
      (serializeKdfParams c ++ (salt ++ (nonce ++ box)))).drop 17 =
      (serializeKdfParams c ++ (salt ++ (nonce ++ box))).drop 12 := rfl
  have hdrop33 : (83 :: 83 :: 49 :: 1 :: KDF_IDS c.id ::
      (serializeKdfParams c ++ (salt ++ (nonce ++ box)))).drop 33 =
      (serializeKdfParams c ++ (salt ++ (nonce ++ box))).drop 28 := rfl
  have hdrop57 : (83 :: 83 :: 49 :: 1 :: KDF_IDS c.id ::
      (serializeKdfParams c ++ (salt ++ (nonce ++ box)))).drop 57 =
      (serializeKdfParams c ++ (salt ++ (nonce ++ box))).drop 52 := rfl
  have htail12 : (serializeKdfParams c ++ (salt ++ (nonce ++ box))).drop 12 =
      salt ++ (nonce ++ box) := List.drop_left' hp
  have htail28 : (serializeKdfParams c ++ (salt ++ (nonce ++ box))).drop 28 =
      nonce ++ box := by
    rw [show (28 : Nat) = 12 + 16 from rfl, ← List.drop_drop, htail12,
      List.drop_left' hs]
  have htail52 : (serializeKdfParams c ++ (salt ++ (nonce ++ box))).drop 52 =
      box := by
    rw [show (52 : Nat) = 28 + 24 from rfl, ← List.drop_drop, htail28,
      List.drop_left' hn]
  rw [hdrop5, hdrop17, hdrop33, hdrop57, htail12, htail28, htail52,
    List.take_left' hp, List.take_left' hs, List.take_left' hn]

/-! ## KDF resolution lemmas -/

/-- With no override and Argon2id available, `deriveKey` resolves to the
Argon2id default. -/
theorem deriveKey_none_true (pw salt : List Nat) :
    deriveKey pw salt none true =
      (argon2Model pw salt (19 * 1024) 2 1 32, DEFAULT_ARGON2ID) := rfl

/-- With no override and Argon2id unavailable, `deriveKey` falls back to
the mobile scrypt default. -/
theorem deriveKey_none_false (pw salt : List Nat) :
    deriveKey pw salt none false =
      (scryptModel pw salt (2 ^ 12) 8 1 32, MOBILE_SCRYPT) := rfl

/-- Whenever the override does not explicitly request scrypt and Argon2id
is unavailable, `deriveKey` ignores the override and uses the mobile
scrypt default. -/
theorem deriveKey_fallback (pw salt : List Nat) (cfg : Option PartialKdfConfig)
    (h : (cfg.bind (fun c => c.id)) ≠ some KdfId.scrypt) :
    deriveKey pw salt cfg false =
      (scryptModel pw salt (2 ^ 12) 8 1 32, MOBILE_SCRYPT) := by
  rw [deriveKey]
  simp only [Bool.false_eq_true, and_false, if_false, if_neg h]
  rfl

/-- Re-deriving with the parsed form of the Argon2id default yields the
same key (the decrypt side of the envelope). -/
theorem rederive_default_argon2id (pw salt : List Nat) :
    deriveKey pw salt
      (some (toPartial (deserializeKdfParams DEFAULT_ARGON2ID.id
        (serializeKdfParams DEFAULT_ARGON2ID)))) true =
      (argon2Model pw salt (19 * 1024) 2 1 32, DEFAULT_ARGON2ID) := rfl

/-- Re-deriving with the parsed form of the mobile scrypt config yields
the same key (the decrypt side of the envelope). -/
theorem rederive_mobile_scrypt (pw salt : List Nat) (env : Bool) :
    deriveKey pw salt
      (some (toPartial (deserializeKdfParams MOBILE_SCRYPT.id
        (serializeKdfParams MOBILE_SCRYPT)))) env =
      (scryptModel pw salt (2 ^ 12) 8 1 32, MOBILE_SCRYPT) := by
  cases env <;> rfl

/-! ## Envelope round trip -/

theorem KDF_IDS_lt (i : KdfId) : KDF_IDS i < 256 := by cases i <;> decide

/-- Every byte of a built envelope blob is a byte, given byte inputs. -/
theorem encryptV2Blob_lt (p pw : List Nat) (cfg : Option PartialKdfConfig)
    (salt nonce : List Nat) (env : Bool)
    (hp : ∀ b ∈ p, b < 256) (hs' : ∀ b ∈ salt, b < 256)
    (hn' : ∀ b ∈ nonce, b < 256) :
    ∀ x ∈ encryptV2Blob p pw cfg salt nonce env, x < 256 := by
  intro x hx
  simp only [encryptV2Blob, createBlob, createHeader, magicBytes,
    List.append_assoc, List.cons_append, List.nil_append, List.mem_cons,
    List.mem_append] at hx
  rcases hx with rfl | rfl | rfl | rfl | rfl | hx | hx | hx | hx
  · omega
  · omega
  · omega
  · omega
  · exact KDF_IDS_lt _
  · exact serializeKdfParams_lt _ x hx
  · exact hs' x hx
  · exact hn' x hx
  · exact secretbox_lt _ _ _ hp x hx

/-- Length of a built envelope blob: header plus payload plus tag. -/
theorem encryptV2Blob_length (p pw : List Nat) (cfg : Option PartialKdfConfig)
    (salt nonce : List Nat) (env : Bool)
    (hs : salt.length = 16) (hn : nonce.length = 24) :
    (encryptV2Blob p pw cfg salt nonce env).length = 57 + p.length + 16 := by
  simp only [encryptV2Blob, createBlob, List.length_append,
    createHeader_length _ _ _ hs hn, secretbox_length]
  omega

/-- Core round trip: decrypting an encryption with the same password in
the same environment succeeds whenever re-deriving from the header's
recorded (parsed) config reproduces the encryption key. -/
theorem decryptV2_encryptV2 (p pw : List Nat) (cfg : Option PartialKdfConfig)
    (salt nonce : List Nat) (env : Bool)
    (hp : ∀ b ∈ p, b < 256) (hs : salt.length = 16) (hs' : ∀ b ∈ salt, b < 256)
    (hn : nonce.length = 24) (hn' : ∀ b ∈ nonce, b < 256)
    (hkey : (deriveKey pw salt
        (some (toPartial (deserializeKdfParams (deriveKey pw salt cfg env).2.id
          (serializeKdfParams (deriveKey pw salt cfg env).2)))) env).1 =
      (deriveKey pw salt cfg env).1) :
    decryptV2 (encryptV2 p pw cfg salt nonce env) pw env = .ok p := by
  have hblt : ∀ x ∈ encryptV2Blob p pw cfg salt nonce env, x < 256 :=
    encryptV2Blob_lt p pw cfg salt nonce env hp hs' hn'
  unfold decryptV2 encryptV2
  rw [base64ToBlob_blobToBase64 _ hblt]
  unfold encryptV2Blob
  rw [parseHeader_createBlob _ _ _ _ hs hn]
  dsimp only
  rw [hkey, secretboxOpen_secretbox]

/-! ## Concrete sample inputs used by the witnesses -/

def samplePlain : List Nat := [104, 105, 33]

def samplePass : List Nat := [112, 119]

def sampleSalt : List Nat := List.replicate 16 7

def sampleNonce : List Nat := List.replicate 24 9

/-- Round trip of `encryptV2`/`decryptV2` with the default (no-override)
config, in either environment. -/
theorem roundtrip_none (p pw salt nonce : List Nat) (env : Bool)
    (hp : ∀ b ∈ p, b < 256) (hs : salt.length = 16) (hs' : ∀ b ∈ salt, b < 256)
    (hn : nonce.length = 24) (hn' : ∀ b ∈ nonce, b < 256) :
    decryptV2 (encryptV2 p pw none salt nonce env) pw env = .ok p := by
  cases env
  · apply decryptV2_encryptV2 p pw none salt nonce false hp hs hs' hn hn'
    rw [deriveKey_none_false]
    dsimp only
    rw [rederive_mobile_scrypt]
  · apply decryptV2_encryptV2 p pw none salt nonce true hp hs hs' hn hn'
    rw [deriveKey_none_true]
    dsimp only
    rw [rederive_default_argon2id]

/-- C1: for every plaintext byte string (including the empty one) and
every password, decrypting the result of `encryptV2` with the same
password (and the same Argon2id availability) returns the plaintext:
`decryptV2 (encryptV2 p pw) pw = ok p`.  Salt and nonce are the
freshly drawn random bytes of the call. -/
theorem C1_encrypt_decrypt_roundtrip (p pw salt nonce : List Nat) (env : Bool)
    (hp : ∀ b ∈ p, b < 256) (hs : salt.length = 16) (hs' : ∀ b ∈ salt, b < 256)
    (hn : nonce.length = 24) (hn' : ∀ b ∈ nonce, b < 256) :
    decryptV2 (encryptV2 p pw none salt nonce env) pw env = .ok p :=
  roundtrip_none p pw salt nonce env hp hs hs' hn hn'

/-- C1 witness: the round trip evaluated at concrete inputs. -/
theorem C1_encrypt_decrypt_roundtrip_witness :
    (∀ b ∈ samplePlain, b < 256) ∧ sampleSalt.length = 16 ∧
    sampleNonce.length = 24 ∧
    decryptV2 (encryptV2 samplePlain samplePass none sampleSalt sampleNonce true)
      samplePass true = .ok samplePlain :=
  ⟨by decide, by decide, by decide,
   C1_encrypt_decrypt_roundtrip samplePlain samplePass sampleSalt sampleNonce true
     (by decide) (by decide) (by decide) (by decide) (by decide)⟩

/-- A 57-byte blob with a valid header and empty ciphertext. -/
def sampleHeaderBlob : List Nat := [83, 83, 49, 1, 2] ++ List.replicate 52 0

/-- C5: `parseHeader` fails on every blob shorter than 57 bytes, on every
blob whose first 3 bytes are not "SS1", on every blob whose version byte
is not 1, and on every blob whose KDF id byte is neither 0x01 nor 0x02;
when all checks pass it returns the parsed header together with all bytes
past the 57-byte header as ciphertext (of any length, including zero). -/
theorem C5_parseHeader_validation (blob : List Nat) :
    (blob.length < 57 → parseHeader blob = .error "Blob too short for header") ∧
    (blob.take 3 ≠ magicBytes → ∃ e, parseHeader blob = .error e) ∧
    (byteAt blob 3 ≠ 1 → ∃ e, parseHeader blob = .error e) ∧
    (byteAt blob 4 ≠ 1 → byteAt blob 4 ≠ 2 → ∃ e, parseHeader blob = .error e) ∧
    (57 ≤ blob.length → blob.take 3 = magicBytes → byteAt blob 3 = 1 →
      ∀ k, KDF_NAMES (byteAt blob 4) = some k →
      parseHeader blob =
        .ok ({ magic := blob.take 3, version := byteAt blob 3, kdfId := k,
               kdfConfig := deserializeKdfParams k ((blob.drop 5).take 12),
               salt := (blob.drop 17).take 16, nonce := (blob.drop 33).take 24 },
             blob.drop 57)) := by
  refine ⟨?_, ?_, ?_, ?_, ?_⟩
  · intro h
    have h' : blob.length < HEADER_SIZE := by unfold HEADER_SIZE; omega
    unfold parseHeader
    rw [if_pos h']
  · intro hm
    rcases Nat.lt_or_ge blob.length HEADER_SIZE with hl | hl
    · exact ⟨_, by unfold parseHeader; rw [if_pos hl]⟩
    · have hl' : ¬ blob.length < HEADER_SIZE := by omega
      exact ⟨_, by unfold parseHeader; rw [if_neg hl', if_neg hm]⟩
  · intro hv
    rcases Nat.lt_or_ge blob.length HEADER_SIZE with hl | hl
    · exact ⟨_, by unfold parseHeader; rw [if_pos hl]⟩
    · have hl' : ¬ blob.length < HEADER_SIZE := by omega
      by_cases hm : blob.take 3 = magicBytes
      · exact ⟨_, by unfold parseHeader; rw [if_neg hl', if_pos hm, if_neg hv]⟩
      · exact ⟨_, by unfold parseHeader; rw [if_neg hl', if_neg hm]⟩
  · intro h1 h2
    have hnone : KDF_NAMES (byteAt blob 4) = none := by
      unfold KDF_NAMES
      rw [if_neg h1, if_neg h2]
    rcases Nat.lt_or_ge blob.length HEADER_SIZE with hl | hl
    · exact ⟨_, by unfold parseHeader; rw [if_pos hl]⟩
    · have hl' : ¬ blob.length < HEADER_SIZE := by omega
      by_cases hm : blob.take 3 = magicBytes
      · by_cases hv : byteAt blob 3 = 1
        · refine ⟨"Unknown KDF ID", ?_⟩
          unfold parseHeader
          rw [if_neg hl', if_pos hm, if_pos hv, hnone]
        · exact ⟨_, by unfold parseHeader; rw [if_neg hl', if_pos hm, if_neg hv]⟩
      · exact ⟨_, by unfold parseHeader; rw [if_neg hl', if_neg hm]⟩
  · intro hl hm hv k hk
    have hl' : ¬ blob.length < HEADER_SIZE := by unfold HEADER_SIZE; omega
    unfold parseHeader
    rw [if_neg hl', if_pos hm, if_pos hv, hk]

/-- C5 witness: the empty blob is rejected as too short, and a valid
57-byte blob parses with empty ciphertext. -/
theorem C5_parseHeader_validation_witness :
    parseHeader ([] : List Nat) = .error "Blob too short for header" ∧
    parseHeader sampleHeaderBlob =
      .ok ({ magic := sampleHeaderBlob.take 3, version := byteAt sampleHeaderBlob 3,
             kdfId := .scrypt,
             kdfConfig := deserializeKdfParams .scrypt
               ((sampleHeaderBlob.drop 5).take 12),
             salt := (sampleHeaderBlob.drop 17).take 16,
             nonce := (sampleHeaderBlob.drop 33).take 24 },
           sampleHeaderBlob.drop 57) :=
  ⟨(C5_parseHeader_validation []).1 (by decide),
   (C5_parseHeader_validation sampleHeaderBlob).2.2.2.2 (by decide) (by decide)
     (by decide) .scrypt (by decide)⟩

/-- C9: every `KdfConfig` reconstructed by `parseHeader` has `keyLen` 32
and zeroes in the fields of the inactive KDF variant, whatever was used
at encryption time (the 12-byte params field never records a key
length). -/
theorem C9_parsed_config_invariant (blob : List Nat) (h : CryptoHeader)
    (ct : List Nat) (hp : parseHeader blob = .ok (h, ct)) :
    h.kdfConfig.keyLen = 32 ∧
    (h.kdfConfig.id = .argon2id →
      h.kdfConfig.N = 0 ∧ h.kdfConfig.r = 0 ∧ h.kdfConfig.s_p = 0) ∧
    (h.kdfConfig.id = .scrypt →
      h.kdfConfig.m = 0 ∧ h.kdfConfig.t = 0 ∧ h.kdfConfig.p = 0) := by
  unfold parseHeader at hp
  split at hp
  · simp at hp
  · split at hp
    · split at hp
      · split at hp
        · simp only [Except.ok.injEq, Prod.mk.injEq] at hp
          obtain ⟨hh, -⟩ := hp
          subst hh
          rename_i k hk
          cases k <;> simp [deserializeKdfParams]
        · simp at hp
      · simp at hp
    · simp at hp

/-- The header a parse of `sampleHeaderBlob` produces. -/
def sampleParsedHeader : CryptoHeader :=
  { magic := [83, 83, 49], version := 1, kdfId := .scrypt,
    kdfConfig := { id := .scrypt, N := 0, r := 0, s_p := 0, m := 0, t := 0,
                   p := 0, keyLen := 32 },
    salt := List.replicate 16 0, nonce := List.replicate 24 0 }

/-- C9 witness: the invariant evaluated on a concrete parsed blob. -/
theorem C9_parsed_config_invariant_witness :
    parseHeader sampleHeaderBlob = .ok (sampleParsedHeader, []) ∧
    (sampleParsedHeader.kdfConfig.keyLen = 32 ∧
     (sampleParsedHeader.kdfConfig.id = .argon2id →
       sampleParsedHeader.kdfConfig.N = 0 ∧ sampleParsedHeader.kdfConfig.r = 0 ∧
       sampleParsedHeader.kdfConfig.s_p = 0) ∧
     (sampleParsedHeader.kdfConfig.id = .scrypt →
       sampleParsedHeader.kdfConfig.m = 0 ∧ sampleParsedHeader.kdfConfig.t = 0 ∧
       sampleParsedHeader.kdfConfig.p = 0)) :=
  ⟨by rfl,
   C9_parsed_config_invariant sampleHeaderBlob sampleParsedHeader [] (by rfl)⟩

/-! ## C3: header round trip -/

/-- A config with a non-default key length (the API accepts any
`keyLen`; `deriveKey` honours it when deriving). -/
def cfgKeyLen64 : KdfConfig :=
  { id := .scrypt, N := 4096, r := 8, s_p := 1, m := 0, t := 0, p := 0,
    keyLen := 64 }

def zeroSalt : List Nat := List.replicate 16 0

def zeroNonce : List Nat := List.replicate 24 0

/-- C3 counterexample: encoding a valid config whose key length is 64 and
decoding it yields a config with key length 32, not the original one —
`parseHeader` is not an exact inverse of `createHeader` on all valid
configs. -/
theorem C3_header_roundtrip_cex :
    parseHeader (createHeader cfgKeyLen64 zeroSalt zeroNonce) =
      .ok ({ magic := magicBytes, version := 1, kdfId := .scrypt,
             kdfConfig := { id := .scrypt, N := 4096, r := 8, s_p := 1, m := 0,
                            t := 0, p := 0, keyLen := 32 },
             salt := zeroSalt, nonce := zeroNonce }, []) ∧
    ({ id := .scrypt, N := 4096, r := 8, s_p := 1, m := 0, t := 0, p := 0,
       keyLen := 32 } : KdfConfig) ≠ cfgKeyLen64 := by
  constructor
  · rfl
  · decide

/-- C3 (amended): for every config whose key length is the default 32,
whose inactive-variant fields are zero and whose active parameters fit in
a uint32, and every 16-byte salt and 24-byte nonce, parsing the encoded
header returns exactly the config, salt and nonce (with no trailing
ciphertext). -/
theorem C3_header_roundtrip_amended (cfg : KdfConfig) (salt nonce : List Nat)
    (hkl : cfg.keyLen = 32)
    (hargon : cfg.id = .argon2id →
      cfg.N = 0 ∧ cfg.r = 0 ∧ cfg.s_p = 0 ∧
      cfg.m < 2 ^ 32 ∧ cfg.t < 2 ^ 32 ∧ cfg.p < 2 ^ 32)
    (hscrypt : cfg.id = .scrypt →
      cfg.m = 0 ∧ cfg.t = 0 ∧ cfg.p = 0 ∧
      cfg.N < 2 ^ 32 ∧ cfg.r < 2 ^ 32 ∧ cfg.s_p < 2 ^ 32)
    (hs : salt.length = 16) (hn : nonce.length = 24) :
    parseHeader (createHeader cfg salt nonce) =
      .ok ({ magic := magicBytes, version := 1, kdfId := cfg.id,
             kdfConfig := cfg, salt := salt, nonce := nonce }, []) := by
  have hblob : createHeader cfg salt nonce =
      createBlob (createHeader cfg salt nonce) [] := by
    simp [createBlob]
  rw [hblob, parseHeader_createBlob _ _ _ _ hs hn]
  rcases hid : cfg.id with _ | _
  · obtain ⟨hN, hr, hsp, hm, ht, hp⟩ := hargon hid
    rw [deserialize_serialize_argon2id cfg hid hm ht hp]
    rcases cfg with ⟨id, m, t, p, N, r, s_p, keyLen⟩
    simp only at hid hkl hN hr hsp
    subst hid hkl hN hr hsp
    rfl
  · obtain ⟨hm, ht, hp, hN, hr, hsp⟩ := hscrypt hid
    rw [deserialize_serialize_scrypt cfg hid hN hr hsp]
    rcases cfg with ⟨id, m, t, p, N, r, s_p, keyLen⟩
    simp only at hid hkl hm ht hp
    subst hid hkl hm ht hp
    rfl

/-- C3 witness: the amended round trip evaluated on the mobile scrypt
config. -/
theorem C3_header_roundtrip_amended_witness :
    MOBILE_SCRYPT.keyLen = 32 ∧ zeroSalt.length = 16 ∧ zeroNonce.length = 24 ∧
    parseHeader (createHeader MOBILE_SCRYPT zeroSalt zeroNonce) =
      .ok ({ magic := magicBytes, version := 1, kdfId := MOBILE_SCRYPT.id,
             kdfConfig := MOBILE_SCRYPT, salt := zeroSalt,
             nonce := zeroNonce }, []) :=
  ⟨by decide, by decide, by decide,
   C3_header_roundtrip_amended MOBILE_SCRYPT zeroSalt zeroNonce (by decide)
     (by decide) (by decide) (by decide) (by decide)⟩

/-! ## C7, C8: blob sizes -/

/-- A successful parse needs at least 57 bytes and returns the bytes past
the header as ciphertext. -/
theorem parseHeader_ok_facts (blob : List Nat) (h : CryptoHeader) (ct : List Nat)
    (hp : parseHeader blob = .ok (h, ct)) :
    57 ≤ blob.length ∧ ct = blob.drop 57 := by
  unfold parseHeader at hp
  split at hp
  · simp at hp
  next hlen =>
    split at hp
    · split at hp
      · split at hp
        · simp only [Except.ok.injEq, Prod.mk.injEq] at hp
          obtain ⟨-, hct⟩ := hp
          refine ⟨?_, hct.symm⟩
          simp only [HEADER_SIZE] at hlen
          omega
        · simp at hp
      · simp at hp
    · simp at hp

/-- C7: every blob built by `encryptV2` is at least 73 = 57 + 16 bytes
long; `decryptV2` fails on every input whose decoded blob is shorter than
73 bytes — below 57 bytes the header parse itself fails (and its error is
what `decryptV2` reports), and a 57-to-72-byte blob with a valid header
fails at the authenticated-open step, so no plaintext is returned. -/
theorem C7_min_blob_length :
    (∀ p pw : List Nat, ∀ cfg : Option PartialKdfConfig, ∀ salt nonce : List Nat,
      ∀ env : Bool, salt.length = 16 → nonce.length = 24 →
      73 ≤ (encryptV2Blob p pw cfg salt nonce env).length) ∧
    (∀ b64 pw : List Nat, ∀ env : Bool, (base64ToBlob b64).length < 57 →
      ∃ e, decryptV2 b64 pw env = .error e ∧
        parseHeader (base64ToBlob b64) = .error e) ∧
    (∀ b64 pw : List Nat, ∀ env : Bool, ∀ h : CryptoHeader, ∀ ct : List Nat,
      (base64ToBlob b64).length < 73 →
      parseHeader (base64ToBlob b64) = .ok (h, ct) →
      decryptV2 b64 pw env =
        .error "Decryption failed: incorrect password or corrupted data") := by
  refine ⟨?_, ?_, ?_⟩
  · intro p pw cfg salt nonce env hs hn
    rw [encryptV2Blob_length p pw cfg salt nonce env hs hn]
    omega
  · intro b64 pw env hlt
    cases hp : parseHeader (base64ToBlob b64) with
    | error e =>
        refine ⟨e, ?_, rfl⟩
        unfold decryptV2
        rw [hp]
    | ok pr =>
        obtain ⟨hge, -⟩ := parseHeader_ok_facts _ pr.1 pr.2 (by rw [hp])
        omega
  · intro b64 pw env h ct hlt hp
    obtain ⟨hge, hct⟩ := parseHeader_ok_facts _ _ _ hp
    have hshort : ct.length < 16 := by
      subst hct
      simp only [List.length_drop]
      omega
    have hnone : secretboxOpen ct h.nonce
        (deriveKey pw h.salt (some (toPartial h.kdfConfig)) env).1 = none := by
      unfold secretboxOpen
      rw [if_pos hshort]
    unfold decryptV2
    rw [hp]
    dsimp only
    rw [hnone]

/-- C7 witness: the lower bound on a concrete encryption, and rejection
of the empty input (decoded blob far shorter than 73 bytes). -/
theorem C7_min_blob_length_witness :
    73 ≤ (encryptV2Blob samplePlain samplePass none sampleSalt sampleNonce
      true).length ∧
    ∃ e, decryptV2 [] samplePass true = .error e ∧
      parseHeader (base64ToBlob []) = .error e :=
  ⟨C7_min_blob_length.1 samplePlain samplePass none sampleSalt sampleNonce true
     (by decide) (by decide),
   C7_min_blob_length.2.1 [] samplePass true (by decide)⟩

/-- The UTF-8 bytes of the plaintext "hello world". -/
def helloWorld : List Nat := [104, 101, 108, 108, 111, 32, 119, 111, 114, 108, 100]

/-- C8: encrypting the 11-byte plaintext "hello world" under any password
produces a blob of exactly 57 + 11 + 16 = 84 bytes before base64, whose
base64 transport form is exactly 112 characters. -/
theorem C8_hello_world_lengths (pw salt nonce : List Nat) (env : Bool)
    (hs : salt.length = 16) (hn : nonce.length = 24) :
    (encryptV2Blob helloWorld pw none salt nonce env).length = 84 ∧
    (encryptV2 helloWorld pw none salt nonce env).length = 112 := by
  have hb : (encryptV2Blob helloWorld pw none salt nonce env).length = 84 := by
    rw [encryptV2Blob_length helloWorld pw none salt nonce env hs hn]
    rfl
  refine ⟨hb, ?_⟩
  unfold encryptV2
  rw [blobToBase64_length, hb]

/-- C8 witness: the two lengths at a concrete password, salt and nonce. -/
theorem C8_hello_world_lengths_witness :
    (encryptV2Blob helloWorld samplePass none sampleSalt sampleNonce true).length
        = 84 ∧
    (encryptV2 helloWorld samplePass none sampleSalt sampleNonce true).length
        = 112 :=
  C8_hello_world_lengths samplePass sampleSalt sampleNonce true (by decide)
    (by decide)

/-! ## C10: legacy adapter and the empty plaintext -/

/-- C10: the legacy decrypt rejects every decoded input of at most 56
bytes; a legacy encryption of the empty string packs exactly
16 + 24 + 16 = 56 bytes, so the legacy round trip fails for the empty
plaintext even with the correct password. -/
theorem C10_legacy_empty_roundtrip_fails (pw salt nonce : List Nat)
    (hs : salt.length = 16) (hs' : ∀ b ∈ salt, b < 256)
    (hn : nonce.length = 24) (hn' : ∀ b ∈ nonce, b < 256) :
    (∀ b64 q : List Nat, (base64ToBlob b64).length ≤ 56 →
      decryptFromBase64 b64 q = .error "Encrypted text too short") ∧
    (base64ToBlob (encryptToBase64Legacy [] pw salt nonce)).length = 56 ∧
    decryptFromBase64 (encryptToBase64Legacy [] pw salt nonce) pw =
      .error "Encrypted text too short" := by
  have hpacked : ∀ x ∈ salt ++ nonce ++ secretbox [] nonce (deriveKeyLegacy pw salt),
      x < 256 := by
    intro x hx
    simp only [List.mem_append] at hx
    rcases hx with (hx | hx) | hx
    · exact hs' x hx
    · exact hn' x hx
    · exact secretbox_lt _ _ _ (by simp) x hx
  have hdec : ∀ b64 q : List Nat, (base64ToBlob b64).length ≤ 56 →
      decryptFromBase64 b64 q = .error "Encrypted text too short" := by
    intro b64 q hle
    unfold decryptFromBase64
    rw [if_pos (by omega)]
  have hlen : (base64ToBlob (encryptToBase64Legacy [] pw salt nonce)).length = 56 := by
    unfold encryptToBase64Legacy
    rw [base64ToBlob_blobToBase64 _ hpacked]
    simp only [List.length_append, secretbox_length, hs, hn, List.length_nil]
  exact ⟨hdec, hlen, hdec _ pw (by omega)⟩

/-- C10 witness: concrete salt and nonce, empty plaintext, correct
password — the legacy round trip is rejected as too short. -/
theorem C10_legacy_empty_roundtrip_fails_witness :
    (base64ToBlob (encryptToBase64Legacy [] samplePass sampleSalt
      sampleNonce)).length = 56 ∧
    decryptFromBase64 (encryptToBase64Legacy [] samplePass sampleSalt sampleNonce)
      samplePass = .error "Encrypted text too short" :=
  ⟨(C10_legacy_empty_roundtrip_fails samplePass sampleSalt sampleNonce
      (by decide) (by decide) (by decide) (by decide)).2.1,
   (C10_legacy_empty_roundtrip_fails samplePass sampleSalt sampleNonce
      (by decide) (by decide) (by decide) (by decide)).2.2⟩

/-! ## C4: KDF fallback -/

/-- C4: when the request does not explicitly specify scrypt and the
Argon2id capability is unavailable, `deriveKey` falls back to the
resource-constrained scrypt default — N=4096, r=8, p=1, keyLength=32,
not the caller's requested parameters — reporting exactly that resolved
config; and a blob encrypted in that state decrypts with scrypt, still
without Argon2id being available. -/
theorem C4_kdf_fallback (pw salt : List Nat) (cfg : Option PartialKdfConfig)
    (hreq : (cfg.bind (fun c => c.id)) ≠ some KdfId.scrypt) :
    deriveKey pw salt cfg false =
      (scryptModel pw salt 4096 8 1 32, MOBILE_SCRYPT) ∧
    MOBILE_SCRYPT.id = KdfId.scrypt ∧ MOBILE_SCRYPT.N = 4096 ∧
    MOBILE_SCRYPT.r = 8 ∧ MOBILE_SCRYPT.s_p = 1 ∧ MOBILE_SCRYPT.keyLen = 32 ∧
    (∀ p nonce : List Nat, (∀ b ∈ p, b < 256) → salt.length = 16 →
      (∀ b ∈ salt, b < 256) → nonce.length = 24 → (∀ b ∈ nonce, b < 256) →
      decryptV2 (encryptV2 p pw cfg salt nonce false) pw false = .ok p) := by
  refine ⟨?_, rfl, rfl, rfl, rfl, rfl, ?_⟩
  · rw [deriveKey_fallback pw salt cfg hreq]
    norm_num
  · intro p nonce hp hs hs' hn hn'
    apply decryptV2_encryptV2 p pw cfg salt nonce false hp hs hs' hn hn'
    rw [deriveKey_fallback pw salt cfg hreq]
    dsimp only
    rw [rederive_mobile_scrypt]

/-- C4 witness: the fallback resolution and the scrypt-only round trip at
concrete inputs (no explicit KDF request). -/
theorem C4_kdf_fallback_witness :
    deriveKey samplePass sampleSalt none false =
      (scryptModel samplePass sampleSalt 4096 8 1 32, MOBILE_SCRYPT) ∧
    decryptV2 (encryptV2 samplePlain samplePass none sampleSalt sampleNonce false)
      samplePass false = .ok samplePlain :=
  ⟨(C4_kdf_fallback samplePass sampleSalt none (by decide)).1,
   (C4_kdf_fallback samplePass sampleSalt none (by decide)).2.2.2.2.2.2
     samplePlain sampleNonce (by decide) (by decide) (by decide) (by decide)
     (by decide)⟩

/-! ## C6: auto-detect decryption -/

/-- C6: `decryptAuto` first attempts the modern `decryptV2`; on any
failure of that path — whatever the error, format or authentication — it
attempts the legacy decrypt; and if that also fails it raises the single
unified error, which does not depend on (and so does not distinguish)
either underlying failure. -/
theorem C6_decryptAuto_unified (b64 pw : List Nat) (env : Bool) :
    (∀ p, decryptV2 b64 pw env = .ok p → decryptAuto b64 pw env = .ok p) ∧
    (∀ e p, decryptV2 b64 pw env = .error e →
      decryptFromBase64 b64 pw = .ok p → decryptAuto b64 pw env = .ok p) ∧
    (∀ e e', decryptV2 b64 pw env = .error e →
      decryptFromBase64 b64 pw = .error e' →
      decryptAuto b64 pw env =
        .error "Decryption failed: incorrect password or unsupported format") := by
  refine ⟨?_, ?_, ?_⟩
  · intro p hv
    unfold decryptAuto
    rw [hv]
  · intro e p hv hl
    unfold decryptAuto
    rw [hv]
    dsimp only
    rw [hl]
  · intro e e' hv hl
    unfold decryptAuto
    rw [hv]
    dsimp only
    rw [hl]

/-- C6 witness: on the empty input both paths fail (format error, then
legacy length error) and the unified error is raised. -/
theorem C6_decryptAuto_unified_witness :
    decryptAuto [] samplePass true =
      .error "Decryption failed: incorrect password or unsupported format" :=
  (C6_decryptAuto_unified [] samplePass true).2.2 "Blob too short for header"
    "Encrypted text too short" (by rfl) (by rfl)

/-! ## C2: triple-layer encryption -/

/-- Every character code of an `encryptV2` output is a byte. -/
theorem encryptV2_lt (p pw : List Nat) (cfg : Option PartialKdfConfig)
    (salt nonce : List Nat) (env : Bool) :
    ∀ x ∈ encryptV2 p pw cfg salt nonce env, x < 256 :=
  blobToBase64_lt _

/-- Successful auto-decrypt of a default-config encryption with the
correct password. -/
theorem decryptAuto_encryptV2_none (p pw salt nonce : List Nat) (env : Bool)
    (hp : ∀ b ∈ p, b < 256) (hs : salt.length = 16) (hs' : ∀ b ∈ salt, b < 256)
    (hn : nonce.length = 24) (hn' : ∀ b ∈ nonce, b < 256) :
    decryptAuto (encryptV2 p pw none salt nonce env) pw env = .ok p := by
  unfold decryptAuto
  rw [roundtrip_none p pw salt nonce env hp hs hs' hn hn']

/-- The modern path's authenticated open rejects an attempted password on
a given input (the recomputed tag differs from the stored one).  This is
the idealized byte-level meaning of "wrong password" at the v2 layer:
it holds for every attempt whose derived key yields a different
authenticator, i.e. all wrong passwords outside authenticator
collisions. -/
def v2AttemptFails (b64 q : List Nat) (env : Bool) : Bool :=
  match parseHeader (base64ToBlob b64) with
  | .ok (h, ct) =>
      (secretboxOpen ct h.nonce
        (deriveKey q h.salt (some (toPartial h.kdfConfig)) env).1).isNone
  | .error _ => true

/-- The legacy path's open rejects an attempted password on a given
input (same idealization for the fallback layer, which slices the blob
at the legacy offsets). -/
def legacyAttemptFails (b64 q : List Nat) : Bool :=
  (secretboxOpen ((base64ToBlob b64).drop 40)
    (((base64ToBlob b64).drop 16).take 24)
    (deriveKeyLegacy q ((base64ToBlob b64).take 16))).isNone

/-- An attempted password whose authenticators mismatch on both the
modern and the legacy path makes `decryptAuto` of an `encryptV2` output
fail with the unified error (the v2 open is reached and rejects, then
the legacy length check passes and its open rejects too). -/
theorem decryptAuto_wrong_attempt (m p q : List Nat)
    (cfg : Option PartialKdfConfig) (salt nonce : List Nat) (env : Bool)
    (hm : ∀ b ∈ m, b < 256) (hs : salt.length = 16) (hs' : ∀ b ∈ salt, b < 256)
    (hn : nonce.length = 24) (hn' : ∀ b ∈ nonce, b < 256)
    (hv : v2AttemptFails (encryptV2 m p cfg salt nonce env) q env = true)
    (hl : legacyAttemptFails (encryptV2 m p cfg salt nonce env) q = true) :
    decryptAuto (encryptV2 m p cfg salt nonce env) q env =
      .error "Decryption failed: incorrect password or unsupported format" := by
  have hblt : ∀ x ∈ encryptV2Blob m p cfg salt nonce env, x < 256 :=
    encryptV2Blob_lt m p cfg salt nonce env hm hs' hn'
  have hdec : base64ToBlob (encryptV2 m p cfg salt nonce env) =
      encryptV2Blob m p cfg salt nonce env := by
    unfold encryptV2
    exact base64ToBlob_blobToBase64 _ hblt
  have hsplit : encryptV2Blob m p cfg salt nonce env =
      createBlob (createHeader (deriveKey p salt cfg env).2 salt nonce)
        (secretbox m nonce (deriveKey p salt cfg env).1) := rfl
  have hparse := parseHeader_createBlob (deriveKey p salt cfg env).2 salt nonce
    (secretbox m nonce (deriveKey p salt cfg env).1) hs hn
  unfold v2AttemptFails at hv
  rw [hdec, hsplit, hparse] at hv
  dsimp only at hv
  rw [Option.isNone_iff_eq_none] at hv
  unfold legacyAttemptFails at hl
  rw [hdec] at hl
  rw [Option.isNone_iff_eq_none] at hl
  have hv2 : decryptV2 (encryptV2 m p cfg salt nonce env) q env =
      .error "Decryption failed: incorrect password or corrupted data" := by
    unfold decryptV2
    rw [hdec, hsplit, hparse]
    dsimp only
    rw [hv]
  have hlg : decryptFromBase64 (encryptV2 m p cfg salt nonce env) q =
      .error "Incorrect password or corrupted data" := by
    unfold decryptFromBase64
    rw [hdec]
    have hlong : ¬ (encryptV2Blob m p cfg salt nonce env).length ≤ 16 + 24 + 16 := by
      rw [encryptV2Blob_length m p cfg salt nonce env hs hn]
      omega
    rw [if_neg hlong]
    dsimp only
    rw [hsplit] at hl
    rw [hsplit, hl]
  unfold decryptAuto
  rw [hv2]
  dsimp only
  rw [hlg]

/-- C2: `tripleEncryptV2` is exactly the three nested `encryptV2` layers
with `pass1` innermost; step-wise decryption with the passwords in the
order `p3, p2, p1` recovers first layer 2, then layer 1, then the
original secret; and a step attempted with a password rejected by both
authenticators (the byte-level meaning of a wrong password — any attempt
whose derived keys yield mismatching tags on the modern and the legacy
path, which covers every wrong password outside authenticator
collisions, and in particular the password of a different layer when a
wrong order is tried) fails at that step with the unified error,
revealing nothing.  Each layer's fresh salt and nonce are explicit. -/
theorem C2_triple_layer_protocol
    (s p1 p2 p3 q1 q2 q3 : List Nat)
    (s1 n1 s2 n2 s3 n3 : List Nat) (env : Bool)
    (hs : ∀ b ∈ s, b < 256)
    (hs1 : s1.length = 16) (hs1' : ∀ b ∈ s1, b < 256)
    (hn1 : n1.length = 24) (hn1' : ∀ b ∈ n1, b < 256)
    (hs2 : s2.length = 16) (hs2' : ∀ b ∈ s2, b < 256)
    (hn2 : n2.length = 24) (hn2' : ∀ b ∈ n2, b < 256)
    (hs3 : s3.length = 16) (hs3' : ∀ b ∈ s3, b < 256)
    (hn3 : n3.length = 24) (hn3' : ∀ b ∈ n3, b < 256)
    (hq1v : v2AttemptFails (tripleEncryptV2 s p1 p2 p3 s1 n1 s2 n2 s3 n3 env)
      q1 env = true)
    (hq1l : legacyAttemptFails (tripleEncryptV2 s p1 p2 p3 s1 n1 s2 n2 s3 n3 env)
      q1 = true)
    (hq2v : v2AttemptFails
      (encryptV2 (encryptV2 s p1 none s1 n1 env) p2 none s2 n2 env) q2 env = true)
    (hq2l : legacyAttemptFails
      (encryptV2 (encryptV2 s p1 none s1 n1 env) p2 none s2 n2 env) q2 = true)
    (hq3v : v2AttemptFails (encryptV2 s p1 none s1 n1 env) q3 env = true)
    (hq3l : legacyAttemptFails (encryptV2 s p1 none s1 n1 env) q3 = true) :
    tripleEncryptV2 s p1 p2 p3 s1 n1 s2 n2 s3 n3 env =
      encryptV2 (encryptV2 (encryptV2 s p1 none s1 n1 env) p2 none s2 n2 env)
        p3 none s3 n3 env ∧
    decryptAuto (tripleEncryptV2 s p1 p2 p3 s1 n1 s2 n2 s3 n3 env) p3 env =
      .ok (encryptV2 (encryptV2 s p1 none s1 n1 env) p2 none s2 n2 env) ∧
    decryptAuto (encryptV2 (encryptV2 s p1 none s1 n1 env) p2 none s2 n2 env)
      p2 env = .ok (encryptV2 s p1 none s1 n1 env) ∧
    decryptAuto (encryptV2 s p1 none s1 n1 env) p1 env = .ok s ∧
    decryptAuto (tripleEncryptV2 s p1 p2 p3 s1 n1 s2 n2 s3 n3 env) q1 env =
      .error "Decryption failed: incorrect password or unsupported format" ∧
    decryptAuto (encryptV2 (encryptV2 s p1 none s1 n1 env) p2 none s2 n2 env)
      q2 env =
      .error "Decryption failed: incorrect password or unsupported format" ∧
    decryptAuto (encryptV2 s p1 none s1 n1 env) q3 env =
      .error "Decryption failed: incorrect password or unsupported format" := by
  have htriple : tripleEncryptV2 s p1 p2 p3 s1 n1 s2 n2 s3 n3 env =
      encryptV2 (encryptV2 (encryptV2 s p1 none s1 n1 env) p2 none s2 n2 env)
        p3 none s3 n3 env := rfl
  have hL1 : ∀ x ∈ encryptV2 s p1 none s1 n1 env, x < 256 :=
    encryptV2_lt s p1 none s1 n1 env
  have hL2 : ∀ x ∈ encryptV2 (encryptV2 s p1 none s1 n1 env) p2 none s2 n2 env,
      x < 256 := encryptV2_lt _ p2 none s2 n2 env
  rw [htriple] at hq1v hq1l
  refine ⟨htriple, ?_, ?_, ?_, ?_, ?_, ?_⟩
  · rw [htriple]
    exact decryptAuto_encryptV2_none _ p3 s3 n3 env hL2 hs3 hs3' hn3 hn3'
  · exact decryptAuto_encryptV2_none _ p2 s2 n2 env hL1 hs2 hs2' hn2 hn2'
  · exact decryptAuto_encryptV2_none s p1 s1 n1 env hs hs1 hs1' hn1 hn1'
  · rw [htriple]
    exact decryptAuto_wrong_attempt _ p3 q1 none s3 n3 env hL2 hs3 hs3' hn3 hn3'
      hq1v hq1l
  · exact decryptAuto_wrong_attempt _ p2 q2 none s2 n2 env hL1 hs2 hs2' hn2 hn2'
      hq2v hq2l
  · exact decryptAuto_wrong_attempt s p1 q3 none s1 n1 env hs hs1 hs1' hn1 hn1'
      hq3v hq3l

def vaultSeed : List Nat := [42]

def vaultPass1 : List Nat := [1]

def vaultPass2 : List Nat := [2]

def vaultPass3 : List Nat := [3]

def vaultWrong : List Nat := [9]

set_option maxRecDepth 100000 in
/-- C2 witness: at concrete passwords, the layering equation, a
successful step-1 decrypt with `pass3`, and a failing step-1 attempt
with a wrong password (whose tag mismatches are computed concretely). -/
theorem C2_triple_layer_protocol_witness :
    tripleEncryptV2 vaultSeed vaultPass1 vaultPass2 vaultPass3 sampleSalt
        sampleNonce sampleSalt sampleNonce sampleSalt sampleNonce true =
      encryptV2 (encryptV2 (encryptV2 vaultSeed vaultPass1 none sampleSalt
        sampleNonce true) vaultPass2 none sampleSalt sampleNonce true)
        vaultPass3 none sampleSalt sampleNonce true ∧
    decryptAuto (tripleEncryptV2 vaultSeed vaultPass1 vaultPass2 vaultPass3
        sampleSalt sampleNonce sampleSalt sampleNonce sampleSalt sampleNonce
        true) vaultPass3 true =
      .ok (encryptV2 (encryptV2 vaultSeed vaultPass1 none sampleSalt sampleNonce
        true) vaultPass2 none sampleSalt sampleNonce true) ∧
    decryptAuto (tripleEncryptV2 vaultSeed vaultPass1 vaultPass2 vaultPass3
        sampleSalt sampleNonce sampleSalt sampleNonce sampleSalt sampleNonce
        true) vaultWrong true =
      .error "Decryption failed: incorrect password or unsupported format" := by
  obtain ⟨h1, h2, -, -, h5, -, -⟩ :=
    C2_triple_layer_protocol vaultSeed vaultPass1 vaultPass2 vaultPass3
      vaultWrong vaultWrong vaultWrong sampleSalt sampleNonce sampleSalt
      sampleNonce sampleSalt sampleNonce true
      (by decide) (by decide) (by decide) (by decide) (by decide) (by decide)
      (by decide) (by decide) (by decide) (by decide) (by decide) (by decide)
      (by decide) (by decide) (by decide) (by decide) (by decide) (by decide)
      (by decide)
  exact ⟨h1, h2, h5⟩
